import Mathlib

/-!
# Verification of the wpa_supplicant control-interface client

A shallow embedding of the parsing and routing layer of `unixgram.go`:
the datagram router of `readLoop`, the event decoder of
`readUnsolicited`, the response parsers (`parseScanResults`,
`parseListNetworksResult`, `parseStatusResults`), `runCommand`, and the
byte-literal wire codec `decodeByteLiteralString`.  Go code that can
panic (out-of-range indexing or slicing) is embedded into the `GoResult`
monad, whose `crash` constructor models a runtime panic.
-/

set_option autoImplicit false

namespace Wpa

/-- Outcome of a Go computation: a normal return, or a runtime panic
(out-of-range index or slice). -/
inductive GoResult (α : Type) where
  | crash : GoResult α
  | ret : α → GoResult α
  deriving DecidableEq, Repr

/-- Map over a `GoResult`, propagating a panic. -/
def gmap {α β : Type} (f : α → β) : GoResult α → GoResult β
  | .crash => .crash
  | .ret a => .ret (f a)

/-- Sequence two Go computations, propagating a panic. -/
def gBind {α β : Type} : GoResult α → (α → GoResult β) → GoResult β
  | .crash, _ => .crash
  | .ret a, f => f a

/-- Go indexing `xs[i]` with an `int` index: panics when out of range. -/
def goIndex {α : Type} (xs : List α) (i : Int) : GoResult α :=
  if h : 0 ≤ i ∧ i.toNat < xs.length then .ret (xs.get ⟨i.toNat, h.2⟩) else .crash

/-! ## Modelled standard-library helpers

The Go string functions are embedded over the character list of a
`String`, by structural recursion, so that every definition evaluates
inside the kernel. -/

/-- The scan of Go's `strings.Split`: at each position, either the
separator is consumed (emitting the piece accumulated so far) or one
character is.  The fuel argument is an upper bound on the number of
steps; callers pass `cs.length + 1`, which the scan never exhausts. -/
def goSplitAux (sep : List Char) : List Char → List Char → Nat → List (List Char)
  | cs, acc, 0 => [acc ++ cs]
  | cs, acc, fuel + 1 =>
    if sep ≠ [] ∧ sep.isPrefixOf cs then
      acc :: goSplitAux sep (cs.drop sep.length) [] fuel
    else
      match cs with
      | [] => [acc]
      | c :: rest => goSplitAux sep rest (acc ++ [c]) fuel

/-- Modelled from the Go standard library: `strings.Split(s, sep)` for a
non-empty separator (every call site passes one).  Always returns at
least one piece; splitting the empty string yields one empty piece. -/
def goSplit (s sep : String) : List String :=
  (goSplitAux sep.data s.data [] (s.data.length + 1)).map String.mk

/-- Whether `pre` is a prefix of `s`; `strings.Index(s, pre) == 0` in
the source holds exactly when this does. -/
def goHasPre (pre s : String) : Bool :=
  pre.data.isPrefixOf s.data

/-- Numeric value of a decimal digit character, if it is one. -/
def digitVal (c : Char) : Option Nat :=
  if '0' ≤ c ∧ c ≤ '9' then some (c.toNat - 48) else none

/-- Accumulate decimal digits; fails on the first non-digit. -/
def digitsToNatAux : List Char → Nat → Option Nat
  | [], acc => some acc
  | c :: cs, acc =>
    match digitVal c with
    | some d => digitsToNatAux cs (acc * 10 + d)
    | none => none

/-- A non-empty all-digit character list as a number. -/
def digitsToNat (cs : List Char) : Option Nat :=
  match cs with
  | [] => none
  | _ => digitsToNatAux cs 0

/-- Modelled from the Go standard library: `strconv.Atoi`, at arbitrary
precision (the `ErrRange` overflow case is not modelled; no claim
depends on it). -/
def goAtoi (s : String) : Option Int :=
  match s.data with
  | '+' :: cs => (digitsToNat cs).map Int.ofNat
  | '-' :: cs => (digitsToNat cs).map fun n => -(n : Int)
  | cs => (digitsToNat cs).map Int.ofNat

/-- Numeric value of a hexadecimal digit character, if it is one. -/
def hexVal (c : Char) : Option Nat :=
  if '0' ≤ c ∧ c ≤ '9' then some (c.toNat - 48)
  else if 'a' ≤ c ∧ c ≤ 'f' then some (c.toNat - 87)
  else if 'A' ≤ c ∧ c ≤ 'F' then some (c.toNat - 55)
  else none

/-- Modelled from the Go standard library: `hex.DecodeString` on a
two-character input with the error discarded, as at the call site in
`decodeByteLiteralString`: on an invalid digit no byte has been
produced, so the ignored-error result is empty. -/
def hexPairChars (c1 c2 : Char) : List Char :=
  match hexVal c1, hexVal c2 with
  | some h, some l => [Char.ofNat (16 * h + l)]
  | _, _ => []

/-- Separated hex pairs of a hardware address: `hh` sep `hh` sep ... -/
def parseMACPairs (sep : Char) : List Char → Option (List Nat)
  | [c1, c2] =>
    match hexVal c1, hexVal c2 with
    | some h, some l => some [16 * h + l]
    | _, _ => none
  | c1 :: c2 :: s :: rest =>
    if s = sep then
      match hexVal c1, hexVal c2, parseMACPairs sep rest with
      | some h, some l, some bs => some ((16 * h + l) :: bs)
      | _, _, _ => none
    else none
  | _ => none

/-- Modelled from the Go standard library: `net.ParseMAC`, restricted to
the colon- and dash-separated hex-pair forms with 6, 8 or 20 bytes (the
dot-separated four-digit form is omitted; no claim depends on it). -/
def parseMAC (s : String) : Option (List Nat) :=
  let cs := s.data
  if cs.length < 14 then none
  else if cs.getD 2 ' ' = ':' ∨ cs.getD 2 ' ' = '-' then
    if (cs.length + 1) % 3 = 0 ∧
        ((cs.length + 1) / 3 = 6 ∨ (cs.length + 1) / 3 = 8 ∨ (cs.length + 1) / 3 = 20) then
      parseMACPairs (cs.getD 2 ' ') cs
    else none
  else none

/-- Strip one trailing carriage return, as `bufio.ScanLines` does. -/
def dropCR (s : String) : String :=
  if s.data.getLast? = some '\r' then String.mk s.data.dropLast else s

/-- The token stream of a `bufio.Scanner` with the default `ScanLines`
split: newline-separated tokens, no final empty token after a trailing
newline, and a trailing carriage return stripped from each token. -/
def goLines (s : String) : List String :=
  let parts := goSplit s "\n"
  (if parts.getLast? = some "" then parts.dropLast else parts).map dropCR

/-- Go's `strings.TrimPrefix`: drop `pre` when it is a prefix, otherwise
return the string unchanged. -/
def goTrimPrefixOf (pre s : String) : String :=
  if pre.data.isPrefixOf s.data then String.mk (s.data.drop pre.data.length) else s

/-! ## The wire codec -/

/-- The scan of `decodeByteLiteralString` (unixgram.go lines 657-674) on
the character level.  The three branches, in source order: a `idx <
length-2` bounded doubled-backslash branch (so a doubled backslash is
only recognised while at least one more character follows it), a
backslash-x hex-escape branch whose `idx < length+3` guard is vacuous
and whose `input[idx+1]` read and `input[idx+2:idx+4]` slice panic when
the input ends too early, and a verbatim-copy branch. -/
def decodeLoop : List Char → GoResult (List Char)
  | [] => .ret []
  | '\\' :: '\\' :: c :: cs => gmap (fun r => '\\' :: r) (decodeLoop (c :: cs))
  | '\\' :: 'x' :: c1 :: c2 :: cs => gmap (fun r => hexPairChars c1 c2 ++ r) (decodeLoop cs)
  | ['\\', 'x', _] => .crash
  | ['\\', 'x'] => .crash
  | ['\\'] => .crash
  | '\\' :: c :: cs => gmap (fun r => '\\' :: r) (decodeLoop (c :: cs))
  | c :: cs => gmap (fun r => c :: r) (decodeLoop cs)

/-- `decodeByteLiteralString` from unixgram.go. -/
def decodeByteLiteralString (s : String) : GoResult String :=
  gmap String.mk (decodeLoop s.data)

/-- Hexadecimal digit character, lowercase. -/
def hexDigitChar (n : Nat) : Char :=
  if n < 10 then Char.ofNat (48 + n) else Char.ofNat (87 + n)

/-- Modelled from the spec: the daemon-side encoding of one byte of a
name field.  A literal backslash is doubled, a printable byte (32..126)
is copied verbatim, and every other byte becomes a backslash-x
hexadecimal escape. -/
def encodeByte (b : Nat) : List Char :=
  if b = 92 then ['\\', '\\']
  else if 32 ≤ b ∧ b ≤ 126 then [Char.ofNat b]
  else ['\\', 'x', hexDigitChar (b / 16), hexDigitChar (b % 16)]

/-- Modelled from the spec: the daemon-side encoder over a whole byte
sequence. -/
def encodeByteLiteral (bs : List Nat) : String :=
  String.mk (bs.foldr (fun b acc => encodeByte b ++ acc) [])

/-! ## The message router -/

/-- A routed datagram: its queue, priority and remaining payload. -/
structure Routed where
  unsolicited : Bool
  priority : Int
  data : List Nat
  deriving DecidableEq, Repr

/-- The datagram classification of `readLoop` (unixgram.go lines
171-199), over the received byte slice.  Byte 60 is the opening angle
bracket, 62 the closing one, and 48..52 the digits 0..4; the priority of
a tagged datagram is obtained through `strconv.Atoi` on the digit, with
the error discarded as in the source. -/
def routeDatagram (buf : List Nat) : Routed :=
  if buf.length ≥ 3 ∧ buf.getD 0 0 = 60 ∧ buf.getD 2 0 = 62 then
    let b := buf.getD 1 0
    if b = 48 ∨ b = 49 ∨ b = 50 ∨ b = 51 ∨ b = 52 then
      { unsolicited := true
        priority := (goAtoi (String.mk [Char.ofNat b])).getD 0
        data := buf.drop 3 }
    else { unsolicited := false, priority := 2, data := buf }
  else { unsolicited := false, priority := 2, data := buf }

/-! ## The event decoder -/

/-- A decoded unsolicited notification. -/
structure WPAEvent where
  event : String
  line : String
  arguments : List (String × String)
  deriving DecidableEq, Repr

/-- Go map read `m[k]` over an insertion list: the binding written last
wins. -/
def mapGet (m : List (String × String)) (k : String) : Option String :=
  (m.filterMap fun p => if p.1 = k then some p.2 else none).getLast?

/-- One iteration of the argument loop of `readUnsolicited` (unixgram.go
lines 239-247): a token containing an equals sign is split on every
equals sign, and contributes a binding only when that split has exactly
two parts. -/
def eventArgStep (m : List (String × String)) (arg : String) : List (String × String) :=
  if arg.data.contains '=' then
    match goSplit arg "=" with
    | [k, v] => m ++ [(k, v)]
    | _ => m
  else m

/-- One iteration of `readUnsolicited` (unixgram.go lines 206-258) as a
pure function from a message payload to the published event; `none`
models the `len(parts) == 0` skip branch.  The prefix test embeds
`strings.Index(parts[0], "CTRL-") != 0`, which holds exactly when
`"CTRL-"` is not a prefix of the first token. -/
def decodeEvent (data : String) : Option WPAEvent :=
  if (goSplit data " ").length = 0 then none
  else if ¬ (goHasPre "CTRL-" ((goSplit data " ").headD "") = true) then
    some { event := "MESSAGE", line := data, arguments := [] }
  else
    some
      { event :=
          if (goSplit data " ").length ≥ 6 ∧ (goSplit data " ").getD 5 "" = "reason=WRONG_KEY"
          then "BAD-PASSPHRASE"
          else goTrimPrefixOf "CTRL-EVENT-" ((goSplit data " ").headD "")
        line := data
        arguments := ((goSplit data " ").drop 1).foldl eventArgStep [] }

/-! ## Errors and runCommand -/

/-- A failure of one strictly parsed field inside a data row. -/
inductive FieldErr where
  | macErr (s : String)
  | atoiErr (s : String)
  deriving DecidableEq, Repr

/-- The `ParseError` of unixgram.go: the offending line (possibly
empty) and an optional nested cause. -/
structure ParseErr where
  line : String := ""
  nested : Option FieldErr := none
  deriving DecidableEq, Repr

/-- An error returned by `cmd`: a transport failure surfaced from the
socket, the 30-second timeout, or (after `runCommand`) a parse error. -/
inductive CmdErr where
  | transport (msg : String)
  | timeout
  | parse (e : ParseErr)
  deriving DecidableEq, Repr

/-- The outcome of `cmd` for one command: either an error (transport or
timeout) or the raw reply. -/
inductive CmdOutcome where
  | failure (e : CmdErr)
  | reply (resp : String)
  deriving DecidableEq, Repr

/-- `runCommand` (unixgram.go lines 460-473) over the outcome of `cmd`:
`bytes.Compare(resp, []byte("OK\n")) == 0` is byte-for-byte equality
with the newline-terminated marker. -/
def runCommand (o : CmdOutcome) : Option CmdErr :=
  match o with
  | .failure e => some e
  | .reply resp => if resp = "OK\n" then none else some (.parse { line := resp })

/-! ## The status parser -/

/-- The fields recognised by `parseStatusResults`; the zero value of
each is the empty string, as in the Go struct. -/
structure StatusResult where
  wpaState : String := ""
  keyMgmt : String := ""
  ipAddr : String := ""
  ssid : String := ""
  address : String := ""
  bssid : String := ""
  frequency : String := ""
  idStr : String := ""
  deriving DecidableEq, Repr

/-- One iteration of the line loop of `parseStatusResults` (unixgram.go
lines 542-567): a line is split on every equals sign, skipped unless the
split has exactly two parts, and otherwise dispatched on the key. -/
def statusStep (res : StatusResult) (ln : String) : StatusResult :=
  match goSplit ln "=" with
  | [k, v] =>
    if k = "wpa_state" then { res with wpaState := v }
    else if k = "key_mgmt" then { res with keyMgmt := v }
    else if k = "ip_address" then { res with ipAddr := v }
    else if k = "ssid" then { res with ssid := v }
    else if k = "address" then { res with address := v }
    else if k = "bssid" then { res with bssid := v }
    else if k = "freq" then { res with frequency := v }
    else if k = "id_str" then { res with idStr := v }
    else res
  | _ => res

/-- `parseStatusResults` (unixgram.go lines 537-570): the error
component of the Go pair is always nil. -/
def parseStatusResults (resp : String) : StatusResult × Option ParseErr :=
  ((goLines resp).foldl statusStep {}, none)

/-! ## The configured-networks parser -/

/-- One stored network profile, as parsed. -/
structure ConfiguredNetwork where
  networkID : String
  ssid : String
  bssid : String
  flags : List String
  deriving DecidableEq, Repr

/-- The column indices recovered from a LIST_NETWORKS header row. -/
structure ListNetCols where
  networkIDCol : Int
  ssidCol : Int
  bssidCol : Int
  flagsCol : Int
  maxCol : Int
  deriving DecidableEq, Repr

/-- One iteration of the header loop of `parseListNetworksResult`
(unixgram.go lines 481-495). -/
def listNetColsStep (acc : ListNetCols) (nc : Nat × String) : ListNetCols :=
  let n : Int := nc.1
  let acc2 :=
    if nc.2 = "network id" then { acc with networkIDCol := n }
    else if nc.2 = "ssid" then { acc with ssidCol := n }
    else if nc.2 = "bssid" then { acc with bssidCol := n }
    else if nc.2 = "flags" then { acc with flagsCol := n }
    else acc
  { acc2 with maxCol := n }

/-- Recover the LIST_NETWORKS column order from the header fields. -/
def findListNetCols (hs : List String) : ListNetCols :=
  hs.enum.foldl listNetColsStep
    { networkIDCol := -1, ssidCol := -1, bssidCol := -1, flagsCol := -1, maxCol := -1 }

/-- The flag-list recovery shared by both tabular parsers: strip one
leading and one trailing bracket and split on the bracket pair; any
other shape leaves the nil flag slice. -/
def parseFlags (f : String) : List String :=
  if f.data.length ≥ 2 ∧ f.data.head? = some '[' ∧ f.data.getLast? = some ']' then
    goSplit (String.mk ((f.data.drop 1).dropLast)) "]["
  else []

/-- `fields[col]` guarded by `col != -1`, with the zero value otherwise,
as in the per-field blocks of both tabular parsers. -/
def fetchField (fields : List String) (col : Int) : GoResult String :=
  if col = -1 then .ret "" else goIndex fields col

/-- The flags field of a data row: fetched and bracket-split only when
the column is known. -/
def fetchFlags (col : Int) (fields : List String) : GoResult (List String) :=
  if col = -1 then .ret [] else gmap parseFlags (goIndex fields col)

/-- The per-row body of the `parseListNetworksResult` data loop, after
the row-length check. -/
def listNetRow (cols : ListNetCols) (fields : List String) : GoResult ConfiguredNetwork :=
  gBind (fetchField fields cols.networkIDCol) fun networkID =>
  gBind (fetchField fields cols.ssidCol) fun ssid =>
  gBind (fetchField fields cols.bssidCol) fun bssid =>
  gBind (fetchFlags cols.flagsCol fields) fun flags =>
  .ret { networkID := networkID, ssid := ssid, bssid := bssid, flags := flags }

/-- The data loop of `parseListNetworksResult` (unixgram.go lines
497-532): on the first row with fewer tab-separated fields than the
highest column index the whole parse is abandoned, returning the nil
result slice together with a single `ParseError` carrying the row. -/
def listNetLoop (cols : ListNetCols) :
    List String → List ConfiguredNetwork → GoResult (List ConfiguredNetwork × Option ParseErr)
  | [], acc => .ret (acc, none)
  | ln :: rest, acc =>
    if ((goSplit ln "\t").length : Int) < cols.maxCol then .ret ([], some { line := ln })
    else gBind (listNetRow cols (goSplit ln "\t")) fun net =>
      listNetLoop cols rest (acc ++ [net])

/-- `parseListNetworksResult` (unixgram.go lines 475-535). -/
def parseListNetworksResult (resp : String) : GoResult (List ConfiguredNetwork × Option ParseErr) :=
  match goLines resp with
  | [] => .ret ([], some {})
  | header :: rows => listNetLoop (findListNetCols (goSplit header " / ")) rows []

/-! ## The scan-results parser -/

/-- One observed access point, as parsed. -/
structure ScanResult where
  bssid : List Nat
  frequency : Int
  rssi : Int
  flags : List String
  ssid : String
  deriving DecidableEq, Repr

/-- The column indices recovered from a SCAN_RESULTS header row. -/
structure ScanCols where
  bssidCol : Int
  freqCol : Int
  rssiCol : Int
  flagsCol : Int
  ssidCol : Int
  maxCol : Int
  deriving DecidableEq, Repr

/-- One iteration of the header loop of `parseScanResults` (unixgram.go
lines 583-598). -/
def scanColsStep (acc : ScanCols) (nc : Nat × String) : ScanCols :=
  let n : Int := nc.1
  let acc2 :=
    if nc.2 = "bssid" then { acc with bssidCol := n }
    else if nc.2 = "frequency" then { acc with freqCol := n }
    else if nc.2 = "signal level" then { acc with rssiCol := n }
    else if nc.2 = "flags" then { acc with flagsCol := n }
    else if nc.2 = "ssid" then { acc with ssidCol := n }
    else acc
  { acc2 with maxCol := n }

/-- Recover the SCAN_RESULTS column order from the header fields. -/
def findScanCols (hs : List String) : ScanCols :=
  hs.enum.foldl scanColsStep
    { bssidCol := -1, freqCol := -1, rssiCol := -1, flagsCol := -1, ssidCol := -1, maxCol := -1 }

/-- The hardware-address field of a scan row: `Sum.inl` is the per-line
`ParseError` with the nested `net.ParseMAC` failure. -/
def fetchBssid (cols : ScanCols) (ln : String) (fields : List String) :
    GoResult (ParseErr ⊕ List Nat) :=
  if cols.bssidCol = -1 then .ret (.inr [])
  else gBind (goIndex fields cols.bssidCol) fun f =>
    match parseMAC f with
    | none => .ret (.inl { line := ln, nested := some (.macErr f) })
    | some m => .ret (.inr m)

/-- An integer field of a scan row: `Sum.inl` is the per-line
`ParseError` with the nested `strconv.Atoi` failure. -/
def fetchAtoi (col : Int) (ln : String) (fields : List String) : GoResult (ParseErr ⊕ Int) :=
  if col = -1 then .ret (.inr 0)
  else gBind (goIndex fields col) fun f =>
    match goAtoi f with
    | none => .ret (.inl { line := ln, nested := some (.atoiErr f) })
    | some n => .ret (.inr n)

/-- The name field of a scan row, decoded from the wire encoding. -/
def fetchSsid (col : Int) (fields : List String) : GoResult String :=
  if col = -1 then .ret "" else gBind (goIndex fields col) decodeByteLiteralString

/-- Sequence row-field computations, propagating both panics and the
per-line error that makes the loop continue with the next row. -/
def rBind {ε α β : Type} (x : GoResult (ε ⊕ α)) (f : α → GoResult (ε ⊕ β)) :
    GoResult (ε ⊕ β) :=
  gBind x fun v =>
    match v with
    | .inl e => .ret (.inl e)
    | .inr a => f a

/-- The per-row body of the `parseScanResults` data loop (unixgram.go
lines 601-652): the row-length check, then the five fields in source
order. -/
def scanRowFields (cols : ScanCols) (ln : String) (fields : List String) :
    GoResult (ParseErr ⊕ ScanResult) :=
  if (fields.length : Int) < cols.maxCol then .ret (.inl { line := ln })
  else
    rBind (fetchBssid cols ln fields) fun bssid =>
    rBind (fetchAtoi cols.freqCol ln fields) fun freq =>
    rBind (fetchAtoi cols.rssiCol ln fields) fun rssi =>
    rBind (gmap Sum.inr (fetchFlags cols.flagsCol fields)) fun flags =>
    rBind (gmap Sum.inr (fetchSsid cols.ssidCol fields)) fun ssid =>
    .ret (.inr { bssid := bssid, frequency := freq, rssi := rssi, flags := flags, ssid := ssid })

/-- One data row of `parseScanResults`, from the raw line. -/
def scanRow (cols : ScanCols) (ln : String) : GoResult (ParseErr ⊕ ScanResult) :=
  scanRowFields cols ln (goSplit ln "\t")

/-- The data loop of `parseScanResults`: each row contributes either a
result or a collected per-line error, in row order. -/
def scanLoop (cols : ScanCols) : List String → GoResult (List ScanResult × List ParseErr)
  | [] => .ret ([], [])
  | ln :: rest =>
    gBind (scanRow cols ln) fun out =>
    gBind (scanLoop cols rest) fun acc =>
    match out with
    | .inl e => .ret (acc.1, e :: acc.2)
    | .inr r => .ret (r :: acc.1, acc.2)

/-- `parseScanResults` (unixgram.go lines 574-655). -/
def parseScanResults (resp : String) : GoResult (List ScanResult × List ParseErr) :=
  match goLines resp with
  | [] => .ret ([], [{}])
  | header :: rows => scanLoop (findScanCols (goSplit header " / ")) rows

/-- The known SCAN_RESULTS column names, in the daemon's nominal order. -/
def scanHeaderNames : Fin 5 → String := !["bssid", "frequency", "signal level", "flags", "ssid"]

/-- The known LIST_NETWORKS column names, in the daemon's nominal order. -/
def listNetHeaderNames : Fin 4 → String := !["network id", "ssid", "bssid", "flags"]

/-! ## Proof-side forms

Alternative presentations of the definitions above, used to state and
prove the theorems; each is related to the source-level definition by a
lemma below. -/

/-- The contribution of one payload token to the event argument map:
`eventArgStep` appends exactly this binding. -/
def argPairOf (t : String) : Option (String × String) :=
  if t.data.contains '=' then
    match goSplit t "=" with
    | [k, v] => some (k, v)
    | _ => none
  else none

/-- The hardware-address field of a scan row with the error's line
detached. -/
def fetchBssidCore (cols : ScanCols) (fields : List String) :
    GoResult (Option FieldErr ⊕ List Nat) :=
  if cols.bssidCol = -1 then .ret (.inr [])
  else gBind (goIndex fields cols.bssidCol) fun f =>
    match parseMAC f with
    | none => .ret (.inl (some (.macErr f)))
    | some m => .ret (.inr m)

/-- An integer field of a scan row with the error's line detached. -/
def fetchAtoiCore (col : Int) (fields : List String) : GoResult (Option FieldErr ⊕ Int) :=
  if col = -1 then .ret (.inr 0)
  else gBind (goIndex fields col) fun f =>
    match goAtoi f with
    | none => .ret (.inl (some (.atoiErr f)))
    | some n => .ret (.inr n)

/-- One scan data row with the error's line detached: `Sum.inl none` is
the short-row error, `Sum.inl (some fe)` a field failure. -/
def scanRowCore (cols : ScanCols) (fields : List String) :
    GoResult (Option FieldErr ⊕ ScanResult) :=
  if (fields.length : Int) < cols.maxCol then .ret (.inl none)
  else
    rBind (fetchBssidCore cols fields) fun bssid =>
    rBind (fetchAtoiCore cols.freqCol fields) fun freq =>
    rBind (fetchAtoiCore cols.rssiCol fields) fun rssi =>
    rBind (gmap Sum.inr (fetchFlags cols.flagsCol fields)) fun flags =>
    rBind (gmap Sum.inr (fetchSsid cols.ssidCol fields)) fun ssid =>
    .ret (.inr { bssid := bssid, frequency := freq, rssi := rssi, flags := flags, ssid := ssid })

/-- Re-attach the offending line to a detached row outcome. -/
def attachLine {α : Type} (ln : String) : Option FieldErr ⊕ α → ParseErr ⊕ α :=
  Sum.map (fun fe => { line := ln, nested := fe }) id

/-- A row outcome with the error payload forgotten: what remains of a
row in the typed-record output. -/
def noErrView {ε α : Type} : GoResult (ε ⊕ α) → GoResult (Option α)
  | .crash => .crash
  | .ret (.inl _) => .ret none
  | .ret (.inr a) => .ret (some a)

/-- The typed-record component of a row-by-row loop over the given row
outcomes, with panic propagation. -/
def resultsOf {ε α : Type} : List (GoResult (ε ⊕ α)) → GoResult (List α)
  | [] => .ret []
  | x :: xs =>
    gBind x fun out =>
    gBind (resultsOf xs) fun rs =>
    match out with
    | .inl _ => .ret rs
    | .inr r => .ret (r :: rs)

/-! ## Helper lemmas -/

/-- Go indexing into a list built from a function on `Fin n` with an
in-range index returns the function's value there. -/
theorem goIndex_ofFn {n : Nat} {α : Type} (f : Fin n → α) (i : Fin n) :
    goIndex (List.ofFn f) (i.1 : Int) = GoResult.ret (f i) := by
  unfold goIndex
  rw [dif_pos ⟨Int.natCast_nonneg _, by simp [i.isLt]⟩]
  congr 1
  simp [List.get_ofFn, Fin.ext_iff]

/-! ## C1: datagram classification -/

/-- C1: a datagram of at least 3 bytes of the form `<d>` with d an
ASCII digit 0..4 is routed unsolicited with the digit's numeric value as
priority and the 3-byte tag stripped; every other datagram is routed
solicited with priority 2 and the payload intact. -/
theorem routeDatagram_spec (buf : List Nat) :
    routeDatagram buf =
      if buf.length ≥ 3 ∧ buf.getD 0 0 = 60 ∧ buf.getD 2 0 = 62 ∧
          48 ≤ buf.getD 1 0 ∧ buf.getD 1 0 ≤ 52 then
        { unsolicited := true, priority := (buf.getD 1 0 : Int) - 48, data := buf.drop 3 }
      else { unsolicited := false, priority := 2, data := buf } := by
  unfold routeDatagram
  by_cases h1 : buf.length ≥ 3 ∧ buf.getD 0 0 = 60 ∧ buf.getD 2 0 = 62
  · rw [if_pos h1]
    by_cases h2 : buf.getD 1 0 = 48 ∨ buf.getD 1 0 = 49 ∨ buf.getD 1 0 = 50 ∨
        buf.getD 1 0 = 51 ∨ buf.getD 1 0 = 52
    · rw [if_pos h2, if_pos ⟨h1.1, h1.2.1, h1.2.2, by omega, by omega⟩]
      rcases h2 with h | h | h | h | h <;> rw [h] <;> congr 1
    · rw [if_neg h2, if_neg ?_]
      rintro ⟨-, -, -, hge, hle⟩
      exact h2 (by omega)
  · rw [if_neg h1, if_neg fun hc => h1 ⟨hc.1, hc.2.1, hc.2.2.1⟩]

/-! ## C2: panics reachable from malformed daemon input -/

/-- C2 fails on the code: a scan data row with exactly `maxCol` fields
passes the `len(fields) < maxCol` check, yet `fields[ssidCol]` with
`ssidCol = maxCol` indexes one past the end of the row, and the
byte-literal decoder reads `input[idx+1]` past the end of a two-byte
input whose backslash-x escape is truncated. -/
theorem scanRow_indexing_panics :
    parseScanResults
        "bssid / frequency / signal level / flags / ssid\n00:11:22:33:44:55\t2412\t-40\t[ESS]" =
      GoResult.crash ∧
    decodeByteLiteralString "\\x" = GoResult.crash := by
  constructor <;> decide

/-! ## C4: the byte-literal round trip -/

/-- C4 fails on the code: encoding the single byte 92 (one backslash)
yields a two-character doubled backslash, whose decoding panics — the
`idx < length-2` bound never recognises a doubled backslash in the last
two input positions, so the second backslash is reached directly and
`input[idx+1]` is read out of range. -/
theorem decode_encode_backslash_panics :
    encodeByteLiteral [92] = "\\\\" ∧
    decodeByteLiteralString (encodeByteLiteral [92]) = GoResult.crash := by
  constructor <;> decide

/-! ## C5: runCommand -/

/-- C5: `runCommand` returns nil exactly when the reply is the literal
newline-terminated `OK` line; an error from `cmd` is returned unchanged;
any other reply becomes a ParseError carrying the reply text. -/
theorem runCommand_spec :
    (∀ o, runCommand o = none ↔ o = CmdOutcome.reply "OK\n") ∧
    (∀ e, runCommand (CmdOutcome.failure e) = some e) ∧
    (∀ resp, resp ≠ "OK\n" →
      runCommand (CmdOutcome.reply resp) = some (CmdErr.parse { line := resp })) := by
  refine ⟨?_, fun e => rfl, ?_⟩
  · intro o
    cases o with
    | failure e => simp [runCommand]
    | reply resp =>
      by_cases h : resp = "OK\n" <;> simp [runCommand, h]
  · intro resp h
    simp [runCommand, h]

/-- Witness for C5 at a failure reply. -/
theorem runCommand_spec_witness :
    runCommand (CmdOutcome.reply "FAIL\n") = some (CmdErr.parse { line := "FAIL\n" }) :=
  runCommand_spec.2.2 "FAIL\n" (by decide)

/-! ## C10: the status parser cannot fail -/

/-- C10: `parseStatusResults` always returns a nil error; the empty
input yields the all-empty record; a line recognised by the key switch
sets the corresponding field; a line that does not split into exactly
two parts on the equals sign, or whose key is unrecognised, leaves the
record unchanged. -/
theorem parseStatusResults_never_fails :
    (∀ resp, (parseStatusResults resp).2 = none) ∧
    (parseStatusResults "").1 = {} ∧
    (parseStatusResults "wpa_state=COMPLETED\nssid=MyNetwork\nfoo=bar").1 =
      { wpaState := "COMPLETED", ssid := "MyNetwork" } ∧
    (∀ res ln, (goSplit ln "=").length ≠ 2 → statusStep res ln = res) ∧
    (∀ res ln k v, goSplit ln "=" = [k, v] →
      k ∉ (["wpa_state", "key_mgmt", "ip_address", "ssid", "address", "bssid",
            "freq", "id_str"] : List String) →
      statusStep res ln = res) := by
  refine ⟨fun resp => rfl, rfl, by decide, ?_, ?_⟩
  · intro res ln h
    unfold statusStep
    cases hs : goSplit ln "=" with
    | nil => rfl
    | cons k tl =>
      cases tl with
      | nil => rfl
      | cons v tl2 =>
        cases tl2 with
        | nil => exact absurd (by rw [hs]; rfl : (goSplit ln "=").length = 2) h
        | cons w tl3 => rfl
  · intro res ln k v hs hk
    simp only [List.mem_cons, List.not_mem_nil, or_false, not_or] at hk
    obtain ⟨h1, h2, h3, h4, h5, h6, h7, h8⟩ := hk
    unfold statusStep
    rw [hs]
    simp [h1, h2, h3, h4, h5, h6, h7, h8]

/-- Witness for C10: a skipped line and an ignored unrecognised key. -/
theorem parseStatusResults_never_fails_witness :
    statusStep {} "bare line" = {} ∧ statusStep {} "foo=bar" = {} :=
  ⟨parseStatusResults_never_fails.2.2.2.1 {} "bare line" (by decide),
   parseStatusResults_never_fails.2.2.2.2 {} "foo=bar" "foo" "bar" (by decide) (by decide)⟩

/-! ## The event decoder: C8 and C9 -/

/-- Shared characterisation of `decodeEvent` on a payload whose first
token carries the `CTRL-` tag. -/
theorem decodeEvent_ctrl_eq (data : String)
    (hpre : goHasPre "CTRL-" ((goSplit data " ").headD "") = true) :
    decodeEvent data = some
      { event :=
          if (goSplit data " ").length ≥ 6 ∧ (goSplit data " ").getD 5 "" = "reason=WRONG_KEY"
          then "BAD-PASSPHRASE"
          else goTrimPrefixOf "CTRL-EVENT-" ((goSplit data " ").headD "")
        line := data
        arguments := ((goSplit data " ").drop 1).foldl eventArgStep [] } := by
  have hne : ¬ (goSplit data " ").length = 0 := by
    intro h0
    rw [List.length_eq_zero] at h0
    rw [h0] at hpre
    exact absurd hpre (by decide)
  unfold decodeEvent
  rw [if_neg hne, if_neg (not_not_intro hpre)]

/-- C8: on a `CTRL-`-tagged payload whose sixth space-separated token is
exactly `reason=WRONG_KEY`, the event name is the distinguished
`BAD-PASSPHRASE`; on every other tagged payload it is the first token
with the `CTRL-EVENT-` tag stripped; in both cases the Line field holds
the payload verbatim. -/
theorem decodeEvent_ctrl_spec (data : String)
    (hpre : goHasPre "CTRL-" ((goSplit data " ").headD "") = true) :
    ∃ ev, decodeEvent data = some ev ∧ ev.line = data ∧
      ev.event =
        (if (goSplit data " ").length ≥ 6 ∧ (goSplit data " ").getD 5 "" = "reason=WRONG_KEY"
         then "BAD-PASSPHRASE"
         else goTrimPrefixOf "CTRL-EVENT-" ((goSplit data " ").headD "")) :=
  ⟨_, decodeEvent_ctrl_eq data hpre, rfl, rfl⟩

/-- Witness for C8: the wrong-key override and the plain tag strip. -/
theorem decodeEvent_ctrl_spec_witness :
    (∃ ev, decodeEvent "CTRL-EVENT-SSID-TEMP-DISABLED id=0 ssid=x auth_failures=1 duration=10 reason=WRONG_KEY" =
        some ev ∧
      ev.line = "CTRL-EVENT-SSID-TEMP-DISABLED id=0 ssid=x auth_failures=1 duration=10 reason=WRONG_KEY" ∧
      ev.event = "BAD-PASSPHRASE") ∧
    (∃ ev, decodeEvent "CTRL-EVENT-CONNECTED - Connection to 00:11:22:33:44:55 completed" = some ev ∧
      ev.line = "CTRL-EVENT-CONNECTED - Connection to 00:11:22:33:44:55 completed" ∧
      ev.event = "CONNECTED") := by
  constructor
  · obtain ⟨ev, h1, h2, h3⟩ := decodeEvent_ctrl_spec
      "CTRL-EVENT-SSID-TEMP-DISABLED id=0 ssid=x auth_failures=1 duration=10 reason=WRONG_KEY"
      (by decide)
    exact ⟨ev, h1, h2, by rw [h3]; decide⟩
  · obtain ⟨ev, h1, h2, h3⟩ := decodeEvent_ctrl_spec
      "CTRL-EVENT-CONNECTED - Connection to 00:11:22:33:44:55 completed" (by decide)
    exact ⟨ev, h1, h2, by rw [h3]; decide⟩

/-- Each token appends exactly its `argPairOf` contribution. -/
theorem eventArgStep_eq (m : List (String × String)) (t : String) :
    eventArgStep m t = m ++ (argPairOf t).toList := by
  unfold eventArgStep argPairOf
  split_ifs with h
  · cases hs : goSplit t "=" with
    | nil => simp
    | cons k tl =>
      cases tl with
      | nil => simp
      | cons v tl2 =>
        cases tl2 with
        | nil => simp
        | cons w tl3 => simp
  · simp

/-- The argument fold appends the per-token contributions in order. -/
theorem foldl_eventArgStep (ts : List String) (m : List (String × String)) :
    ts.foldl eventArgStep m = m ++ ts.filterMap argPairOf := by
  induction ts generalizing m with
  | nil => simp
  | cons t ts ih =>
    rw [List.foldl_cons, ih, eventArgStep_eq, List.filterMap_cons]
    cases argPairOf t <;> simp

/-- C9 fails on the code: the token `a=b=c` contains an equals sign, but
its split on every equals sign has three parts, so it contributes no
argument entry at all — the claimed binding of `a` to `b=c` is absent. -/
theorem eventArguments_counterexample :
    decodeEvent "CTRL-EVENT-TEST a=b=c" =
      some { event := "TEST", line := "CTRL-EVENT-TEST a=b=c", arguments := [] } := by
  decide

/-- C9 amended: a token after the first contributes an argument entry
exactly when it contains an equals sign and splits on equals signs into
exactly two parts, the key being the text before and the value the text
after that sign; tokens with no equals sign, or with two or more,
contribute nothing.  Lookup returns the last contribution for the key. -/
theorem eventArguments_amended (data k : String)
    (hpre : goHasPre "CTRL-" ((goSplit data " ").headD "") = true) :
    ∃ ev, decodeEvent data = some ev ∧
      mapGet ev.arguments k =
        (((goSplit data " ").drop 1).filterMap fun t =>
          (argPairOf t).bind fun p => if p.1 = k then some p.2 else none).getLast? := by
  refine ⟨_, decodeEvent_ctrl_eq data hpre, ?_⟩
  simp only [mapGet, foldl_eventArgStep, List.nil_append, List.filterMap_filterMap]

/-- Witness for C9 amended: the last of two bindings for a key wins and
a two-equals token is ignored. -/
theorem eventArguments_amended_witness :
    ∃ ev, decodeEvent "CTRL-EVENT-TEST a=b c=d=e c=f" = some ev ∧
      mapGet ev.arguments "c" = some "f" := by
  obtain ⟨ev, h1, h2⟩ := eventArguments_amended "CTRL-EVENT-TEST a=b c=d=e c=f" "c" (by decide)
  exact ⟨ev, h1, by rw [h2]; decide⟩

/-! ## C6: the scan parser collects per-row errors -/

/-- The scan data loop under rows none of which panic: every row lands
in exactly one of the two output lists, in row order. -/
theorem scanLoop_no_crash (cols : ScanCols) (rows : List String)
    (h : ∀ ln ∈ rows, scanRow cols ln ≠ GoResult.crash) :
    scanLoop cols rows =
      GoResult.ret
        (rows.filterMap fun ln =>
          match scanRow cols ln with
          | .ret (.inr r) => some r
          | _ => none,
         rows.filterMap fun ln =>
          match scanRow cols ln with
          | .ret (.inl e) => some e
          | _ => none) := by
  induction rows with
  | nil => rfl
  | cons ln rest ih =>
    have h1 : scanRow cols ln ≠ GoResult.crash := h ln (List.mem_cons_self ln rest)
    have h2 : ∀ l ∈ rest, scanRow cols l ≠ GoResult.crash :=
      fun l hl => h l (List.mem_cons_of_mem ln hl)
    unfold scanLoop
    cases hr : scanRow cols ln with
    | crash => exact absurd hr h1
    | ret out =>
      rw [ih h2]
      cases out with
      | inl e => simp [gBind, List.filterMap_cons, hr]
      | inr r => simp [gBind, List.filterMap_cons, hr]

/-- C6: with every data row either parsing or failing one of the checks
(rather than panicking), `parseScanResults` returns the typed record of
every well-formed row and one collected ParseError per rejected row,
without aborting; a row with fewer fields than the highest known column
index contributes the ParseError carrying exactly that row's text. -/
theorem parseScanResults_partial_spec (resp header : String) (rows : List String)
    (hsplit : goLines resp = header :: rows)
    (hsafe : ∀ ln ∈ rows, scanRow (findScanCols (goSplit header " / ")) ln ≠ GoResult.crash) :
    parseScanResults resp =
      GoResult.ret
        (rows.filterMap fun ln =>
          match scanRow (findScanCols (goSplit header " / ")) ln with
          | .ret (.inr r) => some r
          | _ => none,
         rows.filterMap fun ln =>
          match scanRow (findScanCols (goSplit header " / ")) ln with
          | .ret (.inl e) => some e
          | _ => none) ∧
    (∀ ln, ((goSplit ln "\t").length : Int) < (findScanCols (goSplit header " / ")).maxCol →
      scanRow (findScanCols (goSplit header " / ")) ln = GoResult.ret (.inl { line := ln })) := by
  constructor
  · unfold parseScanResults
    rw [hsplit]
    exact scanLoop_no_crash _ rows hsafe
  · intro ln hshort
    unfold scanRow scanRowFields
    rw [if_pos hshort]

set_option maxRecDepth 100000 in
/-- Witness for C6: a good row between a bad-address row and a short
row, on the canonical header. -/
theorem parseScanResults_partial_spec_witness :
    parseScanResults
        "bssid / frequency / signal level / flags / ssid\nzz\t2412\t-40\t[ESS]\tNetA\n00:11:22:33:44:55\t2412\t-40\t[WPA2-PSK-CCMP][ESS]\tNetB\nshort\trow" =
      GoResult.ret
        ([{ bssid := [0, 17, 34, 51, 68, 85], frequency := 2412, rssi := -40,
            flags := ["WPA2-PSK-CCMP", "ESS"], ssid := "NetB" }],
         [{ line := "zz\t2412\t-40\t[ESS]\tNetA", nested := some (.macErr "zz") },
          { line := "short\trow", nested := none }]) := by
  rw [(parseScanResults_partial_spec
        "bssid / frequency / signal level / flags / ssid\nzz\t2412\t-40\t[ESS]\tNetA\n00:11:22:33:44:55\t2412\t-40\t[WPA2-PSK-CCMP][ESS]\tNetB\nshort\trow"
        "bssid / frequency / signal level / flags / ssid"
        ["zz\t2412\t-40\t[ESS]\tNetA",
         "00:11:22:33:44:55\t2412\t-40\t[WPA2-PSK-CCMP][ESS]\tNetB",
         "short\trow"]
        (by decide) (by decide)).1]
  decide

/-! ## C7: the configured-networks parser aborts -/

/-- The list-networks data loop aborts at the first short row, discarding
the rows already parsed. -/
theorem listNetLoop_abort (cols : ListNetCols) (pre : List String) (bad : String)
    (post : List String) (acc : List ConfiguredNetwork)
    (hpre : ∀ ln ∈ pre,
      ¬ ((goSplit ln "\t").length : Int) < cols.maxCol ∧
      listNetRow cols (goSplit ln "\t") ≠ GoResult.crash)
    (hbad : ((goSplit bad "\t").length : Int) < cols.maxCol) :
    listNetLoop cols (pre ++ bad :: post) acc = GoResult.ret ([], some { line := bad }) := by
  induction pre generalizing acc with
  | nil =>
    rw [List.nil_append]
    unfold listNetLoop
    rw [if_pos hbad]
  | cons p pre ih =>
    have hp := hpre p (List.mem_cons_self p pre)
    have hrest : ∀ ln ∈ pre,
        ¬ ((goSplit ln "\t").length : Int) < cols.maxCol ∧
        listNetRow cols (goSplit ln "\t") ≠ GoResult.crash :=
      fun ln hl => hpre ln (List.mem_cons_of_mem p hl)
    rw [List.cons_append]
    unfold listNetLoop
    rw [if_neg hp.1]
    cases hr : listNetRow cols (goSplit p "\t") with
    | crash => exact absurd hr hp.2
    | ret net =>
      simp only [gBind]
      exact ih (acc ++ [net]) hrest

/-- C7: on a configured-networks body whose first malformed data row (a
row with fewer tab-separated fields than the highest known column index)
comes after rows that parse, the whole parse is abandoned at that row:
the rows already parsed are discarded and a single ParseError carrying
the offending row is returned. -/
theorem parseListNetworks_abort_spec (resp header bad : String) (pre post : List String)
    (hsplit : goLines resp = header :: (pre ++ bad :: post))
    (hpre : ∀ ln ∈ pre,
      ¬ ((goSplit ln "\t").length : Int) < (findListNetCols (goSplit header " / ")).maxCol ∧
      listNetRow (findListNetCols (goSplit header " / ")) (goSplit ln "\t") ≠ GoResult.crash)
    (hbad : ((goSplit bad "\t").length : Int) < (findListNetCols (goSplit header " / ")).maxCol) :
    parseListNetworksResult resp = GoResult.ret ([], some { line := bad }) := by
  unfold parseListNetworksResult
  rw [hsplit]
  exact listNetLoop_abort _ pre bad post [] hpre hbad

/-- Witness for C7: one parsed row discarded when the next row is
short. -/
theorem parseListNetworks_abort_spec_witness :
    parseListNetworksResult
        "network id / ssid / bssid / flags\n0\tNetA\tany\t[CURRENT]\nbadrow\n1\tNetB\tany\t[]" =
      GoResult.ret ([], some { line := "badrow" }) :=
  parseListNetworks_abort_spec
    "network id / ssid / bssid / flags\n0\tNetA\tany\t[CURRENT]\nbadrow\n1\tNetB\tany\t[]"
    "network id / ssid / bssid / flags" "badrow"
    ["0\tNetA\tany\t[CURRENT]"] ["1\tNetB\tany\t[]"]
    (by decide) (by decide) (by decide)

/-! ## C3: column order is recovered from the header -/

set_option maxRecDepth 40000 in
set_option maxHeartbeats 1000000 in
/-- Column detection on a permuted SCAN_RESULTS header: each known
column index is the position its name was permuted to. -/
theorem findScanCols_perm (σ : Equiv.Perm (Fin 5)) :
    findScanCols (List.ofFn fun j => scanHeaderNames (σ j)) =
      ⟨((σ.symm 0).1 : Int), ((σ.symm 1).1 : Int), ((σ.symm 2).1 : Int),
       ((σ.symm 3).1 : Int), ((σ.symm 4).1 : Int), 4⟩ := by
  revert σ; decide

set_option maxRecDepth 40000 in
/-- Column detection on a permuted LIST_NETWORKS header. -/
theorem findListNetCols_perm (σ : Equiv.Perm (Fin 4)) :
    findListNetCols (List.ofFn fun j => listNetHeaderNames (σ j)) =
      ⟨((σ.symm 0).1 : Int), ((σ.symm 1).1 : Int), ((σ.symm 2).1 : Int),
       ((σ.symm 3).1 : Int), 3⟩ := by
  revert σ; decide

/-- Column detection on the canonical SCAN_RESULTS header. -/
theorem findScanCols_canonical :
    findScanCols (List.ofFn scanHeaderNames) =
      ⟨((0 : Fin 5).1 : Int), ((1 : Fin 5).1 : Int), ((2 : Fin 5).1 : Int),
       ((3 : Fin 5).1 : Int), ((4 : Fin 5).1 : Int), 4⟩ := by
  decide

/-- Column detection on the canonical LIST_NETWORKS header. -/
theorem findListNetCols_canonical :
    findListNetCols (List.ofFn listNetHeaderNames) =
      ⟨((0 : Fin 4).1 : Int), ((1 : Fin 4).1 : Int), ((2 : Fin 4).1 : Int),
       ((3 : Fin 4).1 : Int), 3⟩ := by
  decide

/-- The hardware-address fetch factors through its detached form. -/
theorem fetchBssid_core (cols : ScanCols) (ln : String) (fields : List String) :
    fetchBssid cols ln fields = gmap (attachLine ln) (fetchBssidCore cols fields) := by
  unfold fetchBssid fetchBssidCore
  split_ifs with h
  · rfl
  · cases hgi : goIndex fields cols.bssidCol with
    | crash => rfl
    | ret f =>
      simp only [gBind]
      cases parseMAC f <;> rfl

/-- An integer fetch factors through its detached form. -/
theorem fetchAtoi_core (col : Int) (ln : String) (fields : List String) :
    fetchAtoi col ln fields = gmap (attachLine ln) (fetchAtoiCore col fields) := by
  unfold fetchAtoi fetchAtoiCore
  split_ifs with h
  · rfl
  · cases hgi : goIndex fields col with
    | crash => rfl
    | ret f =>
      simp only [gBind]
      cases goAtoi f <;> rfl

/-- A scan data row factors through its detached form: the row's text
only enters the error payload. -/
theorem scanRowFields_core (cols : ScanCols) (ln : String) (fields : List String) :
    scanRowFields cols ln fields = gmap (attachLine ln) (scanRowCore cols fields) := by
  unfold scanRowFields scanRowCore
  split_ifs with h
  · rfl
  · rw [fetchBssid_core, fetchAtoi_core, fetchAtoi_core]
    cases hb : fetchBssidCore cols fields with
    | crash => rfl
    | ret vb =>
      cases vb with
      | inl e => rfl
      | inr bs =>
        cases hf : fetchAtoiCore cols.freqCol fields with
        | crash => rfl
        | ret vf =>
          cases vf with
          | inl e => rfl
          | inr fr =>
            cases hr2 : fetchAtoiCore cols.rssiCol fields with
            | crash => rfl
            | ret vr =>
              cases vr with
              | inl e => rfl
              | inr rs =>
                cases hfl : fetchFlags cols.flagsCol fields with
                | crash => rfl
                | ret fl =>
                  cases hsd : fetchSsid cols.ssidCol fields with
                  | crash => rfl
                  | ret sd => rfl

/-- A scan row from the raw line, through the detached form. -/
theorem scanRow_core (cols : ScanCols) (ln : String) :
    scanRow cols ln = gmap (attachLine ln) (scanRowCore cols (goSplit ln "\t")) :=
  scanRowFields_core cols ln (goSplit ln "\t")

/-- Re-attaching a line does not change the typed-record view. -/
theorem noErrView_attach {α : Type} (ln : String) (x : GoResult (Option FieldErr ⊕ α)) :
    noErrView (gmap (attachLine ln) x) = noErrView x := by
  cases x with
  | crash => rfl
  | ret v => cases v <;> rfl

/-- The typed-record component of the scan loop is the record sweep over
the row outcomes. -/
theorem scanLoop_fst (cols : ScanCols) (lns : List String) :
    gmap Prod.fst (scanLoop cols lns) = resultsOf (lns.map (scanRow cols)) := by
  induction lns with
  | nil => rfl
  | cons ln rest ih =>
    simp only [List.map_cons]
    unfold scanLoop resultsOf
    cases scanRow cols ln with
    | crash => rfl
    | ret out =>
      simp only [gBind]
      cases hrec : scanLoop cols rest with
      | crash =>
        have hr : resultsOf (rest.map (scanRow cols)) = GoResult.crash := by
          rw [← ih, hrec]; rfl
        rw [hr]
        cases out <;> rfl
      | ret acc =>
        have hr : resultsOf (rest.map (scanRow cols)) = GoResult.ret acc.1 := by
          rw [← ih, hrec]; rfl
        rw [hr]
        cases out <;> rfl

/-- Row outcome lists with the same typed-record view have the same
record sweep. -/
theorem resultsOf_congr {ε ε2 α : Type} (xs : List (GoResult (ε ⊕ α)))
    (ys : List (GoResult (ε2 ⊕ α))) (h : xs.map noErrView = ys.map noErrView) :
    resultsOf xs = resultsOf ys := by
  induction xs generalizing ys with
  | nil =>
    cases ys with
    | nil => rfl
    | cons y ys => simp at h
  | cons x xs ih =>
    cases ys with
    | nil => simp at h
    | cons y ys =>
      simp only [List.map_cons, List.cons.injEq] at h
      obtain ⟨h1, h2⟩ := h
      unfold resultsOf
      rw [ih ys h2]
      cases x with
      | crash =>
        cases y with
        | crash => rfl
        | ret vy => cases vy <;> simp [noErrView] at h1
      | ret vx =>
        cases y with
        | crash => cases vx <;> simp [noErrView] at h1
        | ret vy =>
          cases vx with
          | inl e =>
            cases vy with
            | inl e2 => rfl
            | inr a2 => simp [noErrView] at h1
          | inr a =>
            cases vy with
            | inl e2 => simp [noErrView] at h1
            | inr a2 =>
              have ha : a = a2 := by simpa [noErrView] using h1
              rw [ha]
              rfl

/-- A detached scan row over fields given by a function on `Fin 5`, with
all five column indices in range: the record is assembled from the cells
selected by name position, in source order. -/
theorem scanRowCore_ofFn (a b c d e : Fin 5) (g : Fin 5 → String) :
    scanRowCore ⟨(a.1 : Int), (b.1 : Int), (c.1 : Int), (d.1 : Int), (e.1 : Int), 4⟩
        (List.ofFn g) =
      (match parseMAC (g a) with
       | none => GoResult.ret (Sum.inl (some (FieldErr.macErr (g a))))
       | some mac =>
         match goAtoi (g b) with
         | none => GoResult.ret (Sum.inl (some (FieldErr.atoiErr (g b))))
         | some fr =>
           match goAtoi (g c) with
           | none => GoResult.ret (Sum.inl (some (FieldErr.atoiErr (g c))))
           | some rs =>
             gBind (decodeByteLiteralString (g e)) fun sd =>
               GoResult.ret (Sum.inr
                 { bssid := mac, frequency := fr, rssi := rs,
                   flags := parseFlags (g d), ssid := sd })) := by
  unfold scanRowCore fetchBssidCore fetchAtoiCore fetchFlags fetchSsid
  have hne : ∀ v : Fin 5, ¬ ((v.1 : Int) = -1) := fun v => by omega
  have hlen : ¬ (((List.ofFn g).length : Int) < 4) := by
    rw [List.length_ofFn]; decide
  rw [if_neg hlen, if_neg (hne a), if_neg (hne b), if_neg (hne c), if_neg (hne d),
      if_neg (hne e), goIndex_ofFn, goIndex_ofFn, goIndex_ofFn, goIndex_ofFn, goIndex_ofFn]
  simp only [gBind]
  cases parseMAC (g a) with
  | none => rfl
  | some mac =>
    cases goAtoi (g b) with
    | none => rfl
    | some fr =>
      cases goAtoi (g c) with
      | none => rfl
      | some rs =>
        cases decodeByteLiteralString (g e) with
        | crash => rfl
        | ret sd => rfl

/-- Permuting the five columns of a scan row together with the column
indices does not change the detached outcome. -/
theorem scanRowCore_perm (σ : Equiv.Perm (Fin 5)) (r : Fin 5 → String) :
    scanRowCore ⟨((σ.symm 0).1 : Int), ((σ.symm 1).1 : Int), ((σ.symm 2).1 : Int),
        ((σ.symm 3).1 : Int), ((σ.symm 4).1 : Int), 4⟩ (List.ofFn fun j => r (σ j)) =
    scanRowCore ⟨((0 : Fin 5).1 : Int), ((1 : Fin 5).1 : Int), ((2 : Fin 5).1 : Int),
        ((3 : Fin 5).1 : Int), ((4 : Fin 5).1 : Int), 4⟩ (List.ofFn r) := by
  rw [scanRowCore_ofFn, scanRowCore_ofFn]
  simp only [Equiv.apply_symm_apply]

/-- A configured-networks row over fields given by a function on
`Fin 4`, with all four column indices in range. -/
theorem listNetRow_ofFn (a b c d : Fin 4) (g : Fin 4 → String) :
    listNetRow ⟨(a.1 : Int), (b.1 : Int), (c.1 : Int), (d.1 : Int), 3⟩ (List.ofFn g) =
      GoResult.ret { networkID := g a, ssid := g b, bssid := g c, flags := parseFlags (g d) } := by
  unfold listNetRow fetchField fetchFlags
  have hne : ∀ v : Fin 4, ¬ ((v.1 : Int) = -1) := fun v => by omega
  rw [if_neg (hne a), if_neg (hne b), if_neg (hne c), if_neg (hne d),
      goIndex_ofFn, goIndex_ofFn, goIndex_ofFn, goIndex_ofFn]
  rfl

/-- The configured-networks loop over full-width rows parses every row,
appending the records in order with no error. -/
theorem listNetLoop_full (a b c d : Fin 4) (lns : List String) (gs : List (Fin 4 → String))
    (acc : List ConfiguredNetwork)
    (h : lns.map (fun ln => goSplit ln "\t") = gs.map fun g => List.ofFn g) :
    listNetLoop ⟨(a.1 : Int), (b.1 : Int), (c.1 : Int), (d.1 : Int), 3⟩ lns acc =
      GoResult.ret
        (acc ++ gs.map fun g =>
          { networkID := g a, ssid := g b, bssid := g c, flags := parseFlags (g d) }, none) := by
  induction gs generalizing lns acc with
  | nil =>
    simp only [List.map_nil] at h
    rw [List.map_eq_nil_iff.mp h]
    simp [listNetLoop]
  | cons g gs ih =>
    cases lns with
    | nil => simp at h
    | cons ln lt =>
      simp only [List.map_cons, List.cons.injEq] at h
      obtain ⟨h1, h2⟩ := h
      unfold listNetLoop
      rw [h1]
      have hlen : ¬ (((List.ofFn g).length : Int) <
          (⟨(a.1 : Int), (b.1 : Int), (c.1 : Int), (d.1 : Int), 3⟩ : ListNetCols).maxCol) := by
        rw [List.length_ofFn]
        show ¬ ((4 : Nat) : Int) < 3
        decide
      rw [if_neg hlen, listNetRow_ofFn]
      simp only [gBind]
      rw [ih lt (acc ++ [_]) h2]
      simp

/-- C3: on a tabular body whose header is a permutation of the known
column names and whose data rows have the columns permuted the same way,
both tabular parsers recover exactly the records of the unpermuted body:
each record field is taken from the column whose header name matches it.
The first conjunct covers scan results, the second configured
networks. -/
theorem tabular_perm_invariant :
    (∀ (σ : Equiv.Perm (Fin 5)) (resp resp2 header header2 : String)
        (lns lns2 : List String) (rs : List (Fin 5 → String)),
      goLines resp = header :: lns →
      goSplit header " / " = List.ofFn (fun j => scanHeaderNames (σ j)) →
      lns.map (fun ln => goSplit ln "\t") = rs.map (fun r => List.ofFn fun j => r (σ j)) →
      goLines resp2 = header2 :: lns2 →
      goSplit header2 " / " = List.ofFn scanHeaderNames →
      lns2.map (fun ln => goSplit ln "\t") = rs.map (fun r => List.ofFn r) →
      gmap Prod.fst (parseScanResults resp) = gmap Prod.fst (parseScanResults resp2)) ∧
    (∀ (σ : Equiv.Perm (Fin 4)) (resp resp2 header header2 : String)
        (lns lns2 : List String) (rs : List (Fin 4 → String)),
      goLines resp = header :: lns →
      goSplit header " / " = List.ofFn (fun j => listNetHeaderNames (σ j)) →
      lns.map (fun ln => goSplit ln "\t") = rs.map (fun r => List.ofFn fun j => r (σ j)) →
      goLines resp2 = header2 :: lns2 →
      goSplit header2 " / " = List.ofFn listNetHeaderNames →
      lns2.map (fun ln => goSplit ln "\t") = rs.map (fun r => List.ofFn r) →
      gmap Prod.fst (parseListNetworksResult resp) =
        gmap Prod.fst (parseListNetworksResult resp2)) := by
  constructor
  · intro σ resp resp2 header header2 lns lns2 rs h1 h2 h3 h4 h5 h6
    have e1 : parseScanResults resp = scanLoop (findScanCols (goSplit header " / ")) lns := by
      unfold parseScanResults; rw [h1]
    have e2 : parseScanResults resp2 = scanLoop (findScanCols (goSplit header2 " / ")) lns2 := by
      unfold parseScanResults; rw [h4]
    rw [e1, e2, h2, h5, findScanCols_perm, findScanCols_canonical, scanLoop_fst, scanLoop_fst]
    apply resultsOf_congr
    clear e1 e2 h1 h4
    induction rs generalizing lns lns2 with
    | nil =>
      simp only [List.map_nil] at h3 h6
      rw [List.map_eq_nil_iff.mp h3, List.map_eq_nil_iff.mp h6]
      rfl
    | cons r rest ih =>
      cases lns with
      | nil => simp at h3
      | cons ln lt =>
        cases lns2 with
        | nil => simp at h6
        | cons ln2 lt2 =>
          simp only [List.map_cons, List.cons.injEq] at h3 h6
          obtain ⟨h31, h32⟩ := h3
          obtain ⟨h61, h62⟩ := h6
          simp only [List.map_cons, List.cons.injEq]
          refine ⟨?_, ih lt lt2 h32 h62⟩
          rw [scanRow_core, scanRow_core, noErrView_attach, noErrView_attach, h31, h61,
              scanRowCore_perm]
  · intro σ resp resp2 header header2 lns lns2 rs h1 h2 h3 h4 h5 h6
    have e1 : parseListNetworksResult resp =
        listNetLoop (findListNetCols (goSplit header " / ")) lns [] := by
      unfold parseListNetworksResult; rw [h1]
    have e2 : parseListNetworksResult resp2 =
        listNetLoop (findListNetCols (goSplit header2 " / ")) lns2 [] := by
      unfold parseListNetworksResult; rw [h4]
    have h3m : lns.map (fun ln => goSplit ln "\t") =
        (rs.map fun r => fun j => r (σ j)).map fun g => List.ofFn g := by
      rw [List.map_map]
      exact h3
    rw [e1, e2, h2, h5, findListNetCols_perm, findListNetCols_canonical,
        listNetLoop_full (σ.symm 0) (σ.symm 1) (σ.symm 2) (σ.symm 3) lns
          (rs.map fun r => fun j => r (σ j)) [] h3m,
        listNetLoop_full 0 1 2 3 lns2 rs [] h6]
    simp only [gmap, List.nil_append, List.map_map]
    congr 1
    apply List.map_congr_left
    intro r hr
    simp [Function.comp, Equiv.apply_symm_apply]

set_option maxRecDepth 100000 in
/-- Witness for C3: the scan header with the name and address columns
swapped, and the network-list header with the name and flag columns
swapped, each against its canonical body. -/
theorem tabular_perm_invariant_witness :
    gmap Prod.fst (parseScanResults
        "ssid / frequency / signal level / flags / bssid\nNetA\t2412\t-40\t[ESS]\t00:11:22:33:44:55") =
      gmap Prod.fst (parseScanResults
        "bssid / frequency / signal level / flags / ssid\n00:11:22:33:44:55\t2412\t-40\t[ESS]\tNetA") ∧
    gmap Prod.fst (parseListNetworksResult
        "network id / flags / bssid / ssid\n0\t[CURRENT]\tany\tNetA") =
      gmap Prod.fst (parseListNetworksResult
        "network id / ssid / bssid / flags\n0\tNetA\tany\t[CURRENT]") := by
  constructor
  · exact tabular_perm_invariant.1 (Equiv.swap 0 4)
      "ssid / frequency / signal level / flags / bssid\nNetA\t2412\t-40\t[ESS]\t00:11:22:33:44:55"
      "bssid / frequency / signal level / flags / ssid\n00:11:22:33:44:55\t2412\t-40\t[ESS]\tNetA"
      "ssid / frequency / signal level / flags / bssid"
      "bssid / frequency / signal level / flags / ssid"
      ["NetA\t2412\t-40\t[ESS]\t00:11:22:33:44:55"]
      ["00:11:22:33:44:55\t2412\t-40\t[ESS]\tNetA"]
      [!["00:11:22:33:44:55", "2412", "-40", "[ESS]", "NetA"]]
      (by decide) (by decide) (by decide) (by decide) (by decide) (by decide)
  · exact tabular_perm_invariant.2 (Equiv.swap 1 3)
      "network id / flags / bssid / ssid\n0\t[CURRENT]\tany\tNetA"
      "network id / ssid / bssid / flags\n0\tNetA\tany\t[CURRENT]"
      "network id / flags / bssid / ssid"
      "network id / ssid / bssid / flags"
      ["0\t[CURRENT]\tany\tNetA"]
      ["0\tNetA\tany\t[CURRENT]"]
      [!["0", "NetA", "any", "[CURRENT]"]]
      (by decide) (by decide) (by decide) (by decide) (by decide) (by decide)

end Wpa
